import Mathlib

/-!
Verification of the ruth-tester trading-data pipeline.

The repository is a Next.js frontend over a FastAPI backend.  The frontend
source is present; the backend (CSV parser, session classifier, stacker)
is deployed separately, so those parts are modelled from the spec where a
claim depends on them.  The frontend chart-data pipeline
(`allFormattedData`, `regularHoursData`, `afterHoursData` in
CustomTradingChart, `handleFileUpload` in FileUpload, and the Home page
session-time defaults) is embedded directly from the source.
-/

/-- A bar as it reaches the charting surface: `time` is a Unix timestamp
(JSON number, modelled as `Int`), the OHLC prices are JSON numbers
(modelled as `Rat`; `parseFloat` on a finite number round-trips, so it is
the identity in this model), and `is_regular_hours` is the backend's
session flag. -/
structure Bar where
  time : Int
  «open» : Rat
  high : Rat
  low : Rat
  close : Rat
  is_regular_hours : Bool
deriving DecidableEq, Repr

/-- JS truthiness of the guard `item.open && item.high && item.low &&
item.close && item.time` in CustomTradingChart: a number is truthy
exactly when it is nonzero (NaN, also falsy in JS, is outside this
model). -/
def itemTruthy (b : Bar) : Bool :=
  decide (b.«open» ≠ 0) && decide (b.high ≠ 0) && decide (b.low ≠ 0) &&
  decide (b.close ≠ 0) && decide (b.time ≠ 0)

/-- The `.map` step of `allFormattedData`: `parseFloat` applied to fields
that are already numbers, so each field is carried over unchanged. -/
def formatItem (b : Bar) : Bar :=
  ⟨b.time, b.«open», b.high, b.low, b.close, b.is_regular_hours⟩

/-- The comparator `(a, b) => a.time - b.time` orders bars by `time`. -/
def timeLE (a b : Bar) : Prop := a.time ≤ b.time

instance : DecidableRel timeLE :=
  fun a b => inferInstanceAs (Decidable (a.time ≤ b.time))

instance : IsTotal Bar timeLE :=
  ⟨fun a b => Int.le_total a.time b.time⟩

instance : IsTrans Bar timeLE :=
  ⟨fun _ _ _ h1 h2 => le_trans h1 h2⟩

/-- CustomTradingChart lines 102-114: filter out items with a falsy OHLC
or time field, map them to chart format, and sort by `time`.
JS `Array.prototype.sort` is stable (ES2019), which `List.insertionSort`
models: ties keep their input order. -/
def allFormattedData (data : List Bar) : List Bar :=
  ((data.filter itemTruthy).map formatItem).insertionSort timeLE

/-- CustomTradingChart lines 122-124: the regular-hours series. -/
def regularHoursData (data : List Bar) : List Bar :=
  (allFormattedData data).filter (fun item => item.is_regular_hours)

/-- CustomTradingChart lines 125-127: the after-hours series. -/
def afterHoursData (data : List Bar) : List Bar :=
  (allFormattedData data).filter (fun item => !item.is_regular_hours)

theorem formatItem_eq (b : Bar) : formatItem b = b := rfl

theorem map_formatItem (l : List Bar) : l.map formatItem = l := by
  have h : formatItem = id := funext formatItem_eq
  rw [h, List.map_id]

theorem allFormattedData_eq_sort_filter (data : List Bar) :
    allFormattedData data = (data.filter itemTruthy).insertionSort timeLE := by
  rw [allFormattedData, map_formatItem]

theorem allFormattedData_perm_filter (data : List Bar) :
    (allFormattedData data).Perm (data.filter itemTruthy) := by
  rw [allFormattedData_eq_sort_filter]
  exact List.perm_insertionSort timeLE _

theorem allFormattedData_sorted (data : List Bar) :
    (allFormattedData data).Sorted timeLE := by
  rw [allFormattedData_eq_sort_filter]
  exact List.sorted_insertionSort timeLE _

theorem mem_allFormattedData_truthy {data : List Bar} {b : Bar}
    (hb : b ∈ allFormattedData data) : itemTruthy b = true :=
  List.of_mem_filter ((allFormattedData_perm_filter data).mem_iff.mp hb)

theorem filter_orderedInsert_timeEq (t : Int) (x : Bar) (hx : x.time = t)
    (l : List Bar) :
    (l.orderedInsert timeLE x).filter (fun b => b.time == t) =
      x :: l.filter (fun b => b.time == t) := by
  induction l with
  | nil => simp [hx]
  | cons b bs ih =>
    by_cases hle : timeLE x b
    · rw [List.orderedInsert, if_pos hle]
      simp [List.filter_cons, hx]
    · have hlt : b.time < x.time := lt_of_not_le hle
      have hbt : b.time ≠ t := by
        intro hbt
        rw [hbt, ← hx] at hlt
        exact lt_irrefl _ hlt
      rw [List.orderedInsert, if_neg hle]
      simp [List.filter_cons, hbt, ih]

theorem filter_orderedInsert_timeNe (t : Int) (x : Bar) (hx : x.time ≠ t)
    (l : List Bar) :
    (l.orderedInsert timeLE x).filter (fun b => b.time == t) =
      l.filter (fun b => b.time == t) := by
  induction l with
  | nil => simp [hx]
  | cons b bs ih =>
    by_cases hle : timeLE x b
    · rw [List.orderedInsert, if_pos hle]
      simp [List.filter_cons, hx]
    · rw [List.orderedInsert, if_neg hle]
      simp [List.filter_cons, ih]

theorem insertionSort_filter_timeEq (t : Int) (l : List Bar) :
    (l.insertionSort timeLE).filter (fun b => b.time == t) =
      l.filter (fun b => b.time == t) := by
  induction l with
  | nil => rfl
  | cons x xs ih =>
    rw [List.insertionSort]
    by_cases hx : x.time = t
    · rw [filter_orderedInsert_timeEq t x hx, ih, List.filter_cons]
      simp [hx]
    · rw [filter_orderedInsert_timeNe t x hx, ih, List.filter_cons]
      simp [hx]

/-- A bar whose `open` price is zero: its guard `item.open && ...` is
falsy in JS, so the chart filter drops it. -/
def zeroOpenBar : Bar := ⟨1, 0, 1, 1, 1, true⟩

/-- Two well-formed bars (all fields truthy), out of time order. -/
def demoBars : List Bar :=
  [⟨100, 1, 2, 1, 1, true⟩, ⟨50, 3, 4, 2, 3, false⟩]

/-- C1 (counterexample): a successfully parsed bar whose `open` price is
zero is dropped by the `item.open && item.high && item.low && item.close
&& item.time` filter, so the rendered output has fewer bars than the
input list. -/
theorem conservation_counterexample :
    (allFormattedData [zeroOpenBar]).length ≠ [zeroOpenBar].length := by
  decide

/-- C1 (amended): for every list of parsed bars all of whose OHLC and
time fields are truthy (nonzero), the rendered output is a permutation
of the input list — same length, no duplication, no loss. -/
theorem conservation_of_truthy (data : List Bar)
    (h : ∀ b ∈ data, itemTruthy b = true) :
    (allFormattedData data).Perm data ∧
    (allFormattedData data).length = data.length := by
  have hf : data.filter itemTruthy = data := List.filter_eq_self.mpr h
  have hp : (allFormattedData data).Perm data := by
    have hperm := allFormattedData_perm_filter data
    rwa [hf] at hperm
  exact ⟨hp, hp.length_eq⟩

/-- Witness for C1 (amended) at a concrete two-bar list. -/
theorem conservation_of_truthy_witness :
    (allFormattedData demoBars).Perm demoBars ∧
    (allFormattedData demoBars).length = demoBars.length :=
  conservation_of_truthy demoBars (by decide)

/-- C2: the charting surface splits the output list into the
regular-hours series and the after-hours series solely by
`is_regular_hours`; every bar appears in exactly one of the two series
(counts add up, the series are disjoint, and their concatenation is a
permutation of the whole list). -/
theorem chart_partition_two_series (data : List Bar) :
    (∀ b : Bar, (allFormattedData data).count b =
      (regularHoursData data).count b + (afterHoursData data).count b) ∧
    (∀ b : Bar, b ∈ regularHoursData data → b ∉ afterHoursData data) ∧
    (regularHoursData data ++ afterHoursData data).Perm
      (allFormattedData data) := by
  have hperm : (regularHoursData data ++ afterHoursData data).Perm
      (allFormattedData data) := by
    rw [regularHoursData, afterHoursData]
    exact List.filter_append_perm (fun item => item.is_regular_hours)
      (allFormattedData data)
  refine ⟨fun b => ?_, fun b hreg hafter => ?_, hperm⟩
  · rw [← hperm.count_eq b, List.count_append]
  · have h1 : b.is_regular_hours = true :=
      (List.mem_filter.mp hreg).2
    have h2 : (!b.is_regular_hours) = true :=
      (List.mem_filter.mp hafter).2
    rw [h1] at h2
    exact Bool.false_ne_true h2

/-- Witness for C2's disjointness hypothesis at a concrete list. -/
theorem chart_partition_two_series_witness :
    demoBars.get ⟨0, by decide⟩ ∉ afterHoursData demoBars :=
  (chart_partition_two_series demoBars).2.1 (demoBars.get ⟨0, by decide⟩)
    (by decide)

/-- C3: the rendered sequence is sorted non-decreasing by timestamp;
bars with equal timestamps keep their relative input order (the filter
at any fixed timestamp is unchanged by the sort); and the multiset of
timestamps is exactly that of the filtered input — no timestamp is
rewritten. -/
theorem output_order_invariant (data : List Bar) :
    (allFormattedData data).Sorted timeLE ∧
    (∀ t : Int, (allFormattedData data).filter (fun b => b.time == t) =
      (data.filter itemTruthy).filter (fun b => b.time == t)) ∧
    ((allFormattedData data).map (fun b => b.time)).Perm
      ((data.filter itemTruthy).map (fun b => b.time)) := by
  refine ⟨allFormattedData_sorted data, fun t => ?_, ?_⟩
  · rw [allFormattedData_eq_sort_filter]
    exact insertionSort_filter_timeEq t (data.filter itemTruthy)
  · exact (allFormattedData_perm_filter data).map (fun b => b.time)

/-- C6: the formatting/stacking transformation is idempotent — running
it again on its own output changes nothing: every output bar passes the
truthiness filter, `parseFloat` re-coercion is the identity on numbers,
and re-sorting a sorted list is the identity. -/
theorem stacker_idempotent (data : List Bar) :
    allFormattedData (allFormattedData data) = allFormattedData data := by
  have hfilter : (allFormattedData data).filter itemTruthy =
      allFormattedData data :=
    List.filter_eq_self.mpr fun b hb => mem_allFormattedData_truthy hb
  rw [allFormattedData_eq_sort_filter (allFormattedData data), hfilter]
  exact (allFormattedData_sorted data).insertionSort_eq

/-- Observable actions performed by FileUpload.handleFileUpload, in
program order: state updates, form-data construction, the network
request, the parent callback, and clearing the file input. -/
inductive UploadAction where
  | setUploading (value : Bool)
  | setStatus (message : String)
  | appendForm (field value : String)
  | sendRequest
  | invokeCallback
  | clearInput
deriving DecidableEq, Repr

/-- Outcome of the fetch to the backend: the response was ok (and its
body parsed), the response was not ok (carrying `statusText`), or the
request threw (carrying the message of an `Error` instance, or `none`
for a non-`Error` throw). -/
inductive FetchResult where
  | ok
  | httpError (statusText : String)
  | thrown (errMessage : Option String)
deriving DecidableEq, Repr

/-- JS `file.name.toLowerCase().endsWith(".csv")`, expressed over the
character list so that it is computable by the kernel. -/
def endsWithCsv (fileName : String) : Bool :=
  List.isSuffixOf ".csv".data (fileName.data.map Char.toLower)

/-- FileUpload lines 49-100, as the trace of actions it performs.  A
non-`.csv` file name (lowercased) sets the status and returns at once.
Otherwise the handler sets the uploading flag, builds the form data
(the two time strings only when truthy, i.e. non-empty), sends the
request, and on a non-ok response throws `Upload failed: statusText`,
which the catch block wraps once more into the displayed status; the
`finally` block always resets the uploading flag. -/
def handleFileUpload (fileName prevClose currentOpen : String)
    (fetch : FetchResult) : List UploadAction :=
  if endsWithCsv fileName = false then
    [UploadAction.setStatus "Please select a CSV file"]
  else
    [UploadAction.setUploading true,
     UploadAction.setStatus "Uploading and processing...",
     UploadAction.appendForm "file" fileName]
    ++ (if prevClose ≠ "" then
          [UploadAction.appendForm "prev_close_time" prevClose] else [])
    ++ (if currentOpen ≠ "" then
          [UploadAction.appendForm "current_open_time" currentOpen] else [])
    ++ [UploadAction.sendRequest]
    ++ (match fetch with
        | FetchResult.ok =>
            [UploadAction.setStatus "File uploaded successfully!",
             UploadAction.invokeCallback,
             UploadAction.clearInput]
        | FetchResult.httpError statusText =>
            [UploadAction.setStatus
              ("Upload failed: " ++ ("Upload failed: " ++ statusText))]
        | FetchResult.thrown errMessage =>
            [UploadAction.setStatus
              ("Upload failed: " ++ errMessage.getD "Unknown error")])
    ++ [UploadAction.setUploading false]

/-- Home page line 10: initial value of the `prevCloseTime` state. -/
def prevCloseTime : String := "16:00"

/-- Home page line 11: initial value of the `currentOpenTime` state. -/
def currentOpenTime : String := "07:00"

/-- Checks that a string is a wall-clock time in HH:MM 24-hour format. -/
def isHHMM (s : String) : Bool :=
  match s.toList with
  | [h1, h2, ':', m1, m2] =>
    h1.isDigit && h2.isDigit && m1.isDigit && m2.isDigit &&
    decide ((h1.toNat - 48) * 10 + (h2.toNat - 48) < 24) &&
    decide ((m1.toNat - 48) * 10 + (m2.toNat - 48) < 60)
  | _ => false

theorem uploadFailed_split (x : String) :
    "Upload failed: " ++ x = "Upload failed" ++ (": " ++ x) := by
  rw [← String.append_assoc]
  exact rfl

theorem handleFileUpload_csv (fileName prevClose currentOpen : String)
    (fetch : FetchResult) (hcsv : endsWithCsv fileName = true) :
    handleFileUpload fileName prevClose currentOpen fetch =
      [UploadAction.setUploading true,
       UploadAction.setStatus "Uploading and processing...",
       UploadAction.appendForm "file" fileName]
      ++ (if prevClose ≠ "" then
            [UploadAction.appendForm "prev_close_time" prevClose] else [])
      ++ (if currentOpen ≠ "" then
            [UploadAction.appendForm "current_open_time" currentOpen] else [])
      ++ [UploadAction.sendRequest]
      ++ (match fetch with
          | FetchResult.ok =>
              [UploadAction.setStatus "File uploaded successfully!",
               UploadAction.invokeCallback,
               UploadAction.clearInput]
          | FetchResult.httpError statusText =>
              [UploadAction.setStatus
                ("Upload failed: " ++ ("Upload failed: " ++ statusText))]
          | FetchResult.thrown errMessage =>
              [UploadAction.setStatus
                ("Upload failed: " ++ errMessage.getD "Unknown error")])
      ++ [UploadAction.setUploading false] := by
  rw [handleFileUpload.eq_def,
    if_neg (show ¬ (endsWithCsv fileName = false) by simp [hcsv])]

/-- C9: when the lowercased file name does not end in ".csv", the
handler sets the status "Please select a CSV file" and returns before
constructing form data, sending any request, or invoking the
`onFileUploaded` callback. -/
theorem csv_filename_gate (fileName prevClose currentOpen : String)
    (fetch : FetchResult) (h : endsWithCsv fileName = false) :
    UploadAction.setStatus "Please select a CSV file"
        ∈ handleFileUpload fileName prevClose currentOpen fetch ∧
    UploadAction.sendRequest
        ∉ handleFileUpload fileName prevClose currentOpen fetch ∧
    UploadAction.invokeCallback
        ∉ handleFileUpload fileName prevClose currentOpen fetch ∧
    (∀ k v : String, UploadAction.appendForm k v
        ∉ handleFileUpload fileName prevClose currentOpen fetch) := by
  rw [handleFileUpload.eq_def, if_pos h]
  refine ⟨List.mem_singleton_self _, ?_, ?_, fun k v => ?_⟩ <;> simp

/-- Witness for C9: a ".txt" file never reaches the network request. -/
theorem csv_filename_gate_witness :
    UploadAction.sendRequest
      ∉ handleFileUpload "data.txt" prevCloseTime currentOpenTime
          FetchResult.ok :=
  (csv_filename_gate "data.txt" prevCloseTime currentOpenTime
    FetchResult.ok (by decide)).2.1

/-- C5: the page-level session-time defaults are the strings "16:00"
and "07:00", both valid HH:MM 24-hour times, and whenever the
page-level values are non-empty they are attached to the upload form
data under exactly the field names `prev_close_time` and
`current_open_time`. -/
theorem session_config_defaults (fileName prevClose currentOpen : String)
    (fetch : FetchResult) (hcsv : endsWithCsv fileName = true) :
    prevCloseTime = "16:00" ∧ currentOpenTime = "07:00" ∧
    isHHMM prevCloseTime = true ∧ isHHMM currentOpenTime = true ∧
    (prevClose ≠ "" →
      UploadAction.appendForm "prev_close_time" prevClose
        ∈ handleFileUpload fileName prevClose currentOpen fetch) ∧
    (currentOpen ≠ "" →
      UploadAction.appendForm "current_open_time" currentOpen
        ∈ handleFileUpload fileName prevClose currentOpen fetch) := by
  refine ⟨rfl, rfl, by decide, by decide, fun hp => ?_, fun hc => ?_⟩
  · rw [handleFileUpload_csv fileName prevClose currentOpen fetch hcsv]
    simp [hp]
  · rw [handleFileUpload_csv fileName prevClose currentOpen fetch hcsv]
    simp [hc]

/-- Witness for C5: the defaults themselves are appended when used. -/
theorem session_config_defaults_witness :
    UploadAction.appendForm "prev_close_time" prevCloseTime
      ∈ handleFileUpload "a.csv" prevCloseTime currentOpenTime
          FetchResult.ok :=
  ((session_config_defaults "a.csv" prevCloseTime currentOpenTime
      FetchResult.ok (by decide)).2.2.2.2.1) (by decide)

/-- C10: when the response is not ok or the fetch throws, the callback
is never invoked and the file input is not cleared; the status set in
the catch block starts with "Upload failed"; and in every outcome the
`finally` block makes the last state update reset the uploading flag to
false. -/
theorem upload_failure_atomicity (fileName prevClose currentOpen : String)
    (fetch : FetchResult) (hcsv : endsWithCsv fileName = true)
    (hfail : fetch ≠ FetchResult.ok) :
    UploadAction.invokeCallback
        ∉ handleFileUpload fileName prevClose currentOpen fetch ∧
    UploadAction.clearInput
        ∉ handleFileUpload fileName prevClose currentOpen fetch ∧
    (∃ rest : String, UploadAction.setStatus ("Upload failed" ++ rest)
        ∈ handleFileUpload fileName prevClose currentOpen fetch) ∧
    (∀ f : FetchResult,
      (handleFileUpload fileName prevClose currentOpen f).getLast? =
        some (UploadAction.setUploading false)) := by
  refine ⟨?_, ?_, ?_, fun f => ?_⟩
  · rw [handleFileUpload_csv fileName prevClose currentOpen fetch hcsv]
    cases fetch with
    | ok => exact absurd rfl hfail
    | httpError statusText => simp
    | thrown errMessage => simp
  · rw [handleFileUpload_csv fileName prevClose currentOpen fetch hcsv]
    cases fetch with
    | ok => exact absurd rfl hfail
    | httpError statusText => simp
    | thrown errMessage => simp
  · cases fetch with
    | ok => exact absurd rfl hfail
    | httpError statusText =>
        refine ⟨": " ++ ("Upload failed: " ++ statusText), ?_⟩
        rw [handleFileUpload_csv fileName prevClose currentOpen _ hcsv,
          ← uploadFailed_split]
        simp
    | thrown errMessage =>
        refine ⟨": " ++ errMessage.getD "Unknown error", ?_⟩
        rw [handleFileUpload_csv fileName prevClose currentOpen _ hcsv,
          ← uploadFailed_split]
        simp
  · rw [handleFileUpload_csv fileName prevClose currentOpen f hcsv]
    cases f <;> split_ifs <;> simp [List.getLast?_append]

/-- Witness for C10 at a concrete failing upload. -/
theorem upload_failure_atomicity_witness :
    UploadAction.invokeCallback
      ∉ handleFileUpload "a.csv" prevCloseTime currentOpenTime
          (FetchResult.httpError "Not Found") :=
  (upload_failure_atomicity "a.csv" prevCloseTime currentOpenTime
    (FetchResult.httpError "Not Found") (by decide) (by decide)).1

/-- Modelled from the spec: the backend Session Classifier is part of
the FastAPI service, which is not under src/.  `SessionConfig` holds the
regular-session window boundaries as local wall-clock times in the
reference market timezone, in minutes after local midnight. -/
structure SessionConfig where
  regular_open : Int
  regular_close : Int
deriving DecidableEq, Repr

/-- Modelled from the spec: timezone projection of the Classifier.  A
timezone is given by its UTC offset in minutes as a function of the
instant (which accommodates daylight-saving rules); the result is the
reference-zone local wall-clock time of day of a Unix timestamp, in
minutes after local midnight (always in `[0, 1440)`). -/
def localMinutesOfDay (referenceZone : Int → Int) (timestamp : Int) : Int :=
  (timestamp / 60 + referenceZone timestamp) % 1440

/-- Modelled from the spec: a bar is regular-hours iff its
reference-zone local time of day lies in the half-open window
`[regular_open, regular_close)`. -/
def isRegularHours (cfg : SessionConfig) (referenceZone : Int → Int)
    (timestamp : Int) : Bool :=
  decide (cfg.regular_open ≤ localMinutesOfDay referenceZone timestamp ∧
    localMinutesOfDay referenceZone timestamp < cfg.regular_close)

/-- Modelled from the spec: the Classifier enriches one bar with its
session flag, derived from the bar's own timestamp only, and leaves
every other field unchanged. -/
def classifyBar (cfg : SessionConfig) (referenceZone : Int → Int)
    (b : Bar) : Bar :=
  ⟨b.time, b.«open», b.high, b.low, b.close,
    isRegularHours cfg referenceZone b.time⟩

/-- Modelled from the spec: the Classifier walks the batch in input
order, classifying each bar; it never reorders. -/
def classify (cfg : SessionConfig) (referenceZone : Int → Int) :
    List Bar → List Bar
  | [] => []
  | b :: bs => classifyBar cfg referenceZone b ::
      classify cfg referenceZone bs

theorem classify_append (cfg : SessionConfig) (referenceZone : Int → Int)
    (l1 l2 : List Bar) :
    classify cfg referenceZone (l1 ++ l2) =
      classify cfg referenceZone l1 ++ classify cfg referenceZone l2 := by
  induction l1 with
  | nil => rfl
  | cons b bs ih => simp [classify, ih]

theorem classify_length (cfg : SessionConfig) (referenceZone : Int → Int)
    (l : List Bar) :
    (classify cfg referenceZone l).length = l.length := by
  induction l with
  | nil => rfl
  | cons b bs ih => simp [classify, ih]

/-- C4: `is_regular_hours` is true iff the reference-zone local time of
day lies in `[regular_open, regular_close)`; a bar whose local time
equals `regular_close` exactly is after-hours, and one whose local time
equals `regular_open` exactly is regular (the window being nonempty). -/
theorem classification_boundary_exact (cfg : SessionConfig)
    (referenceZone : Int → Int) (ts tsOpen tsClose : Int)
    (hwin : cfg.regular_open < cfg.regular_close)
    (hOpen : localMinutesOfDay referenceZone tsOpen = cfg.regular_open)
    (hClose : localMinutesOfDay referenceZone tsClose = cfg.regular_close) :
    (isRegularHours cfg referenceZone ts = true ↔
      (cfg.regular_open ≤ localMinutesOfDay referenceZone ts ∧
       localMinutesOfDay referenceZone ts < cfg.regular_close)) ∧
    isRegularHours cfg referenceZone tsOpen = true ∧
    isRegularHours cfg referenceZone tsClose = false := by
  refine ⟨decide_eq_true_iff, ?_, ?_⟩
  · rw [isRegularHours, hOpen]
    exact decide_eq_true ⟨le_refl _, hwin⟩
  · rw [isRegularHours, hClose]
    exact decide_eq_false (fun h => lt_irrefl _ h.2)

/-- Witness for C4: NY market window 09:30-16:00 (570-960 minutes),
fixed offset -300 minutes; 52200 s lands exactly on the open boundary
and 75600 s exactly on the close boundary. -/
theorem classification_boundary_exact_witness :
    (isRegularHours ⟨570, 960⟩ (fun _ => -300) 52200 = true ↔
      ((570 : Int) ≤ localMinutesOfDay (fun _ => -300) 52200 ∧
       localMinutesOfDay (fun _ => -300) 52200 < 960)) ∧
    isRegularHours ⟨570, 960⟩ (fun _ => -300) 52200 = true ∧
    isRegularHours ⟨570, 960⟩ (fun _ => -300) 75600 = false :=
  classification_boundary_exact ⟨570, 960⟩ (fun _ => -300) 52200 52200 75600
    (by decide) (by decide) (by decide)

/-- C8: the session flag of a bar is a pure function of its own
timestamp, the reference timezone and the session config: classifying a
bar inside any batch gives exactly `classifyBar` of that bar alone
(independence from neighbors), the flag equals `isRegularHours` of the
triple, and reclassifying an already classified bar with the same
config yields the same result. -/
theorem classification_purity (cfg : SessionConfig)
    (referenceZone : Int → Int) (pre post : List Bar) (b : Bar) :
    (classify cfg referenceZone (pre ++ b :: post))[pre.length]? =
      some (classifyBar cfg referenceZone b) ∧
    (classifyBar cfg referenceZone b).is_regular_hours =
      isRegularHours cfg referenceZone b.time ∧
    classifyBar cfg referenceZone (classifyBar cfg referenceZone b) =
      classifyBar cfg referenceZone b := by
  refine ⟨?_, rfl, rfl⟩
  rw [classify_append]
  rw [List.getElem?_append_right
    (le_of_eq (classify_length cfg referenceZone pre))]
  rw [classify_length cfg referenceZone pre, Nat.sub_self]
  simp [classify]

/-- Modelled from the spec: one row-level error descriptor
`{row_number, reason}`. -/
structure RowError where
  row_number : Nat
  reason : String
deriving DecidableEq, Repr

/-- Modelled from the spec: the backend Parser is part of the FastAPI
service, not under src/.  Per-row parsing of the timestamp and OHLC
fields is abstracted as `parseRow`; `parse` walks the data rows in
input order carrying the current row number, collects the bars of rows
that parse, and appends one `{row_number, reason}` descriptor for each
row that fails to parse — one bad row never aborts the batch. -/
def parse (parseRow : List String → Except String Bar) :
    Nat → List (List String) → List Bar × List RowError
  | _, [] => ([], [])
  | i, r :: rs =>
    let rest := parse parseRow (i + 1) rs
    match parseRow r with
    | Except.ok b => (b :: rest.1, rest.2)
    | Except.error msg => (rest.1, ⟨i, msg⟩ :: rest.2)

theorem parse_cons_ok (parseRow : List String → Except String Bar)
    {r : List String} {b : Bar} (hpr : parseRow r = Except.ok b)
    (i : Nat) (rs : List (List String)) :
    parse parseRow i (r :: rs) =
      (b :: (parse parseRow (i + 1) rs).1, (parse parseRow (i + 1) rs).2) := by
  simp [parse, hpr]

theorem parse_cons_error (parseRow : List String → Except String Bar)
    {r : List String} {msg : String} (hpr : parseRow r = Except.error msg)
    (i : Nat) (rs : List (List String)) :
    parse parseRow i (r :: rs) =
      ((parse parseRow (i + 1) rs).1,
        ⟨i, msg⟩ :: (parse parseRow (i + 1) rs).2) := by
  simp [parse, hpr]

theorem parse_length_sum (parseRow : List String → Except String Bar) :
    ∀ (rows : List (List String)) (i : Nat),
      (parse parseRow i rows).1.length + (parse parseRow i rows).2.length =
        rows.length := by
  intro rows
  induction rows with
  | nil => intro i; rfl
  | cons r rs ih =>
    intro i
    cases hpr : parseRow r with
    | ok b =>
      rw [parse_cons_ok parseRow hpr]
      simp only [List.length_cons]
      rw [Nat.succ_add]
      rw [ih (i + 1)]
    | error msg =>
      rw [parse_cons_error parseRow hpr]
      simp only [List.length_cons]
      rw [Nat.add_succ]
      rw [ih (i + 1)]

theorem parse_bars_eq_filterMap (parseRow : List String → Except String Bar) :
    ∀ (rows : List (List String)) (i : Nat),
      (parse parseRow i rows).1 =
        rows.filterMap (fun r => (parseRow r).toOption) := by
  intro rows
  induction rows with
  | nil => intro i; rfl
  | cons r rs ih =>
    intro i
    cases hpr : parseRow r with
    | ok b =>
      rw [parse_cons_ok parseRow hpr]
      simp [List.filterMap_cons, hpr, Except.toOption, ih (i + 1)]
    | error msg =>
      rw [parse_cons_error parseRow hpr]
      simp [List.filterMap_cons, hpr, Except.toOption, ih (i + 1)]

theorem parse_errors_ge (parseRow : List String → Except String Bar) :
    ∀ (rows : List (List String)) (i : Nat),
      ∀ e ∈ (parse parseRow i rows).2, i ≤ e.row_number := by
  intro rows
  induction rows with
  | nil => intro i e he; simp [parse] at he
  | cons r rs ih =>
    intro i e he
    cases hpr : parseRow r with
    | ok b =>
      rw [parse_cons_ok parseRow hpr] at he
      exact Nat.le_of_succ_le (ih (i + 1) e he)
    | error msg =>
      rw [parse_cons_error parseRow hpr] at he
      rcases List.mem_cons.mp he with h1 | h2
      · rw [h1]
      · exact Nat.le_of_succ_le (ih (i + 1) e h2)

theorem parse_countP_head_zero (parseRow : List String → Except String Bar)
    (rows : List (List String)) (i j : Nat) (hj : j < i) :
    (parse parseRow i rows).2.countP (fun e => e.row_number == j) = 0 := by
  refine List.countP_eq_zero.mpr fun e he => ?_
  have hge := parse_errors_ge parseRow rows i e he
  simp only [beq_iff_eq]
  intro heq
  rw [heq] at hge
  exact absurd hj (not_lt.mpr hge)

theorem parse_countP_ok (parseRow : List String → Except String Bar) :
    ∀ (rows : List (List String)) (i j : Nat) (hj : j < rows.length)
      (b : Bar), parseRow (rows.get ⟨j, hj⟩) = Except.ok b →
      (parse parseRow i rows).2.countP
        (fun e => e.row_number == i + j) = 0 := by
  intro rows
  induction rows with
  | nil => intro i j hj; exact absurd hj (Nat.not_lt_zero j)
  | cons r rs ih =>
    intro i j hj b hb
    cases j with
    | zero =>
      have hb0 : parseRow r = Except.ok b := hb
      rw [parse_cons_ok parseRow hb0]
      exact parse_countP_head_zero parseRow rs (i + 1) (i + 0) (by omega)
    | succ k =>
      have hk : k < rs.length := Nat.lt_of_succ_lt_succ hj
      have hb2 : parseRow (rs.get ⟨k, hk⟩) = Except.ok b := hb
      have harith : i + (k + 1) = i + 1 + k := by omega
      cases hpr : parseRow r with
      | ok b0 =>
        rw [parse_cons_ok parseRow hpr, harith]
        exact ih (i + 1) k hk b hb2
      | error msg =>
        rw [parse_cons_error parseRow hpr, harith, List.countP_cons,
          ih (i + 1) k hk b hb2]
        have hne : (i == i + 1 + k) = false := by
          simp only [beq_eq_false_iff_ne, ne_eq]
          omega
        rw [hne]
        simp

theorem parse_countP_error (parseRow : List String → Except String Bar) :
    ∀ (rows : List (List String)) (i j : Nat) (hj : j < rows.length)
      (msg : String), parseRow (rows.get ⟨j, hj⟩) = Except.error msg →
      (parse parseRow i rows).2.countP
        (fun e => e.row_number == i + j) = 1 := by
  intro rows
  induction rows with
  | nil => intro i j hj; exact absurd hj (Nat.not_lt_zero j)
  | cons r rs ih =>
    intro i j hj msg hmsg
    cases j with
    | zero =>
      have hm0 : parseRow r = Except.error msg := hmsg
      rw [parse_cons_error parseRow hm0, List.countP_cons,
        parse_countP_head_zero parseRow rs (i + 1) (i + 0) (by omega)]
      simp
    | succ k =>
      have hk : k < rs.length := Nat.lt_of_succ_lt_succ hj
      have hm2 : parseRow (rs.get ⟨k, hk⟩) = Except.error msg := hmsg
      have harith : i + (k + 1) = i + 1 + k := by omega
      cases hpr : parseRow r with
      | ok b0 =>
        rw [parse_cons_ok parseRow hpr, harith]
        exact ih (i + 1) k hk msg hm2
      | error msg0 =>
        rw [parse_cons_error parseRow hpr, harith, List.countP_cons,
          ih (i + 1) k hk msg hm2]
        have hne : (i == i + 1 + k) = false := by
          simp only [beq_eq_false_iff_ne, ne_eq]
          omega
        rw [hne]
        simp

theorem parse_errors_ne_nil (parseRow : List String → Except String Bar) :
    ∀ (rows : List (List String)) (i : Nat) (r : List String),
      r ∈ rows → (∃ msg, parseRow r = Except.error msg) →
      (parse parseRow i rows).2 ≠ [] := by
  intro rows
  induction rows with
  | nil => intro i r hr; exact absurd hr (List.not_mem_nil r)
  | cons x rs ih =>
    intro i r hr hmsg
    cases hpr : parseRow x with
    | ok b =>
      rw [parse_cons_ok parseRow hpr]
      rcases List.mem_cons.mp hr with h1 | h2
      · rcases hmsg with ⟨msg, hmsg⟩
        rw [h1, hpr] at hmsg
        exact absurd hmsg (by simp)
      · exact ih (i + 1) r h2 hmsg
    | error msg =>
      rw [parse_cons_error parseRow hpr]
      exact List.cons_ne_nil _ _

/-- C7 (spec-modelled): the Parser skips a row whose required fields
fail to parse, appends exactly one `{row_number, reason}` descriptor
for it, and keeps parsing: every row contributes exactly one bar or one
error, the bars are exactly the successes in input order, a good row
contributes no error descriptor and a bad row contributes exactly one,
and a partially bad file yields fewer bars than input rows together
with a non-empty error list. -/
theorem parser_row_recovery (parseRow : List String → Except String Bar)
    (start : Nat) (rows : List (List String)) :
    (parse parseRow start rows).1.length +
        (parse parseRow start rows).2.length = rows.length ∧
    (parse parseRow start rows).1 =
        rows.filterMap (fun r => (parseRow r).toOption) ∧
    (∀ j : Nat, ∀ hj : j < rows.length, ∀ b : Bar,
        parseRow (rows.get ⟨j, hj⟩) = Except.ok b →
        (parse parseRow start rows).2.countP
          (fun e => e.row_number == start + j) = 0) ∧
    (∀ j : Nat, ∀ hj : j < rows.length, ∀ msg : String,
        parseRow (rows.get ⟨j, hj⟩) = Except.error msg →
        (parse parseRow start rows).2.countP
          (fun e => e.row_number == start + j) = 1) ∧
    ((∃ r ∈ rows, ∃ msg, parseRow r = Except.error msg) →
        (parse parseRow start rows).2 ≠ [] ∧
        (parse parseRow start rows).1.length < rows.length) := by
  refine ⟨parse_length_sum parseRow rows start,
    parse_bars_eq_filterMap parseRow rows start,
    fun j hj b hb => parse_countP_ok parseRow rows start j hj b hb,
    fun j hj msg hmsg => parse_countP_error parseRow rows start j hj msg hmsg,
    fun hbad => ?_⟩
  rcases hbad with ⟨r, hr, hmsg⟩
  have hne : (parse parseRow start rows).2 ≠ [] :=
    parse_errors_ne_nil parseRow rows start r hr hmsg
  refine ⟨hne, ?_⟩
  have hpos : 0 < (parse parseRow start rows).2.length :=
    List.length_pos.mpr hne
  have hsum := parse_length_sum parseRow rows start
  omega

/-- A toy row parser for the witness: an empty row is missing its
required fields; any other row parses to a fixed bar. -/
def demoParseRow (cells : List String) : Except String Bar :=
  match cells with
  | [] => Except.error "missing fields"
  | _ :: _ => Except.ok ⟨1, 1, 1, 1, 1, true⟩

/-- Three data rows, the middle one bad. -/
def demoRows : List (List String) :=
  [["2024-01-02 09:30", "1", "1", "1", "1"], [],
   ["2024-01-02 09:31", "1", "1", "1", "1"]]

/-- Witness for C7: with rows numbered from 2, the bad middle row gets
exactly one error descriptor with row number 3, and the batch still
succeeds with fewer bars than rows and a non-empty error list. -/
theorem parser_row_recovery_witness :
    (parse demoParseRow 2 demoRows).2.countP
        (fun e => e.row_number == 2 + 1) = 1 ∧
    (parse demoParseRow 2 demoRows).2 ≠ [] ∧
    (parse demoParseRow 2 demoRows).1.length < demoRows.length := by
  have h := parser_row_recovery demoParseRow 2 demoRows
  refine ⟨h.2.2.2.1 1 (by decide) "missing fields" rfl, ?_, ?_⟩
  · exact (h.2.2.2.2 ⟨[], by decide, "missing fields", rfl⟩).1
  · exact (h.2.2.2.2 ⟨[], by decide, "missing fields", rfl⟩).2
